import Mathlib

set_option linter.unusedVariables false
set_option maxRecDepth 8000

/-!
Verification development for the SNMP MAC-to-switch-port resolver of the
Local_Device_Healthcheck_Agent repository.

The resolver `snmp_mac_to_port` appears twice in the repository, in
`src/frontend/frontend.py` and in `src/Frontend.py`; the two copies differ
only in comments and docstrings.  The primary embedding below follows
`src/frontend/frontend.py`; a second copy, following `src/Frontend.py`, is
given in namespace `TopFrontend` for the behavioural-equivalence claim.

The SNMP transport (pysnmp's `nextCmd` generator) is modelled as data: each
of the four table walks performed by the resolver (forwarding database,
base-port to interface index, interface name, interface description) is a
list of response rows, each row carrying the truthiness of
`errorIndication` / `errorStatus` and the list of `(oid, value)` variable
bindings, where an oid is a list of sub-identifiers and a value is the
string produced by `prettyPrint()`.  A Boolean flag per walk models an
exception raised by the generator after its rows are exhausted, and one
flag models an exception raised while constructing the engine/transport
objects.  Python's `try/except` around the body is modelled with `Except`.
-/

namespace HealthCheck

/-- Whitespace characters stripped by Python's `int()` before parsing
(the ASCII ones; the resolver never feeds it other whitespace). -/
def isPyWs (c : Char) : Bool :=
  c == ' ' || c == '\t' || c == '\n' || c == '\r' || c == '\x0b' || c == '\x0c'

/-- Strip leading and trailing whitespace, as Python's `int()` does. -/
def stripWs (cs : List Char) : List Char :=
  ((cs.dropWhile isPyWs).reverse.dropWhile isPyWs).reverse

/-- Hexadecimal digit test, as accepted by Python's `int(_, 16)`. -/
def isHexDigitCh (c : Char) : Bool :=
  c.isDigit || ('a'.toNat ≤ c.toNat && c.toNat ≤ 'f'.toNat)
    || ('A'.toNat ≤ c.toNat && c.toNat ≤ 'F'.toNat)

/-- Value of a hexadecimal digit character. -/
def hexDigitVal (c : Char) : Nat :=
  if c.isDigit then c.toNat - '0'.toNat
  else if 'a'.toNat ≤ c.toNat && c.toNat ≤ 'f'.toNat then c.toNat - 'a'.toNat + 10
  else c.toNat - 'A'.toNat + 10

/-- Digits of a Python integer literal after the first digit: each further
digit may be preceded by a single underscore (`digit (("_")? digit)*`). -/
def digitsCore (base : Nat) (isD : Char → Bool) (v : Char → Nat) :
    Nat → List Char → Option Nat
  | acc, [] => some acc
  | acc, '_' :: rest =>
    match rest with
    | [] => none
    | c :: rest2 =>
      if isD c then digitsCore base isD v (acc * base + v c) rest2 else none
  | acc, c :: rest =>
    if isD c then digitsCore base isD v (acc * base + v c) rest else none

/-- Nonempty run of digits with single underscores between digits. -/
def parseDigits (base : Nat) (isD : Char → Bool) (v : Char → Nat) :
    List Char → Option Nat
  | [] => none
  | c :: rest => if isD c then digitsCore base isD v (v c) rest else none

/-- Magnitude part of Python `int(s, 16)`: an optional `0x`/`0X` base
marker (which may be followed by one underscore), then hex digits with
single underscores between digits. -/
def pyIntHexMag (cs : List Char) : Option Nat :=
  match cs with
  | '0' :: c :: rest =>
    if c == 'x' || c == 'X' then
      match rest with
      | '_' :: rest2 => parseDigits 16 isHexDigitCh hexDigitVal rest2
      | _ => parseDigits 16 isHexDigitCh hexDigitVal rest
    else parseDigits 16 isHexDigitCh hexDigitVal ('0' :: c :: rest)
  | _ => parseDigits 16 isHexDigitCh hexDigitVal cs

/-- Wrap a magnitude parser with Python `int()`'s whitespace stripping and
optional single leading sign. -/
def pySigned (mag : List Char → Option Nat) (cs : List Char) : Option Int :=
  match stripWs cs with
  | '+' :: rest => (mag rest).map Int.ofNat
  | '-' :: rest => (mag rest).map (fun n => -(n : Int))
  | rest => (mag rest).map Int.ofNat

/-- Python `int(s, 16)` on the characters of `s`; `none` models the raised
`ValueError`. -/
def pyIntHexChars (cs : List Char) : Option Int :=
  pySigned pyIntHexMag cs

/-- Python `int(s)` (base 10); `none` models the raised `ValueError`. -/
def pyInt (s : String) : Option Int :=
  pySigned (parseDigits 10 Char.isDigit (fun c => c.toNat - '0'.toNat)) s.data

/-- Dotted-decimal rendering of an object identifier, as produced both by
`".".join(str(x) for x in oid)` and by `str(oid)` on a pysnmp oid. -/
def oidStr (oid : List Nat) : String :=
  String.intercalate "." (oid.map toString)

/-- Suffix test on strings, as Python's `str.endswith`. -/
def strEndsWith (s suf : String) : Bool :=
  suf.data.isSuffixOf s.data

/-- Core of `re.split(r"[:-]", s)`: the first group and the remaining
groups, splitting on every `:` or `-` and keeping empty pieces. -/
def splitSepCore : List Char → List Char × List (List Char)
  | [] => ([], [])
  | c :: rest =>
    let p := splitSepCore rest
    if c == ':' || c == '-' then ([], p.1 :: p.2) else (c :: p.1, p.2)

/-- Python `re.split(r"[:-]", s)` as a list of groups of characters. -/
def reSplitSep (cs : List Char) : List (List Char) :=
  (splitSepCore cs).1 :: (splitSepCore cs).2

/-- List comprehension `[int(p, 16) for p in groups]`: parse every group,
failing (raising) on the first malformed one. -/
def parseGroups : List (List Char) → Option (List Int)
  | [] => some []
  | g :: gs =>
    match pyIntHexChars g with
    | none => none
    | some n => (parseGroups gs).map (fun ns => n :: ns)

/-- Embedding of the nested helper `mac_str_to_oid_suffix` of
`snmp_mac_to_port` (`src/frontend/frontend.py`):
`parts = [int(p, 16) for p in re.split(r"[:-]", mac)]` followed by
`".".join(str(p) for p in parts)`.  `none` models the `ValueError` raised
by `int(p, 16)` on a malformed group. -/
def mac_str_to_oid_suffix (mac : String) : Option String :=
  (parseGroups (reSplitSep mac.data)).map
    (fun parts => String.intercalate "." (parts.map toString))

/-- One response row yielded by pysnmp's `nextCmd` generator: the
truthiness of `err_ind` and `err_stat`, and the `var_binds` list of
`(oid, val.prettyPrint())` pairs.  The never-read `err_idx` component of
the source's 4-tuple is omitted. -/
structure Row where
  errInd : Bool
  errStat : Bool
  varBinds : List (List Nat × String)
deriving DecidableEq

/-- Behaviour of the SNMP transport for one call: the rows yielded by each
of the four `nextCmd` walks the resolver may perform, a flag per walk for
an exception raised by the generator once its listed rows are exhausted,
and a flag for an exception raised while constructing the
engine/community/transport/context objects. -/
structure Transport where
  fdbWalk : List Row
  fdbExc : Bool
  baseportWalk : List Row
  baseportExc : Bool
  ifnameWalk : List Row
  ifnameExc : Bool
  ifdescrWalk : List Row
  ifdescrExc : Bool
  setupExc : Bool
deriving DecidableEq

/-- Result dictionary `{ifIndex, ifName, ifDescr}` of `snmp_mac_to_port`;
`ifName`/`ifDescr` are `none` when the corresponding Python value is
`None`. -/
structure PortMapping where
  ifIndex : Int
  ifName : Option String
  ifDescr : Option String
deriving DecidableEq

/-- Python truthiness of a variable holding `None` or an `int`. -/
def truthyInt : Option Int → Bool
  | none => false
  | some n => n != 0

/-- Python truthiness of a variable holding `None` or a `str`. -/
def truthyStr : Option String → Bool
  | none => false
  | some s => s != ""

/-- Inner loop of the FDB walk over one row's `var_binds`: the first bind
whose dotted oid ends in `"." + mac_suffix` stops the scan; on it,
`fdb_port` is set to `int(val.prettyPrint())` when that parses and is left
unchanged when the parse raises (`except: pass`). -/
def fdbScanBinds (macSuffix : String) (cur : Option Int) :
    List (List Nat × String) → Option Int
  | [] => cur
  | (oid, val) :: rest =>
    if strEndsWith (oidStr oid) ("." ++ macSuffix) then
      match pyInt val with
      | some n => some n
      | none => cur
    else fdbScanBinds macSuffix cur rest

/-- Outer loop of the FDB walk: break on `err_ind or err_stat`, scan the
row's binds, break when `fdb_port` is truthy; an exhausted generator whose
exception flag is set raises (`Except.error`). -/
def fdbLoop (macSuffix : String) :
    Option Int → List Row → Bool → Except Unit (Option Int)
  | cur, [], exc => if exc then .error () else .ok cur
  | cur, r :: rs, exc =>
    if r.errInd || r.errStat then .ok cur
    else
      let cur2 := fdbScanBinds macSuffix cur r.varBinds
      if truthyInt cur2 then .ok cur2 else fdbLoop macSuffix cur2 rs exc

/-- Inner loop of the base-port walk over one row's `var_binds`: for each
bind, `base_port = int(str(oid).split(".")[-1])`; when it equals
`fdb_port`, `ifindex = int(val.prettyPrint())` and break — an exception
from either conversion hits the inner `except: pass` and the scan
continues with the next bind. -/
def baseportScanBinds (fdbPort : Int) (cur : Option Int) :
    List (List Nat × String) → Option Int
  | [] => cur
  | (oid, val) :: rest =>
    match oid.getLast? with
    | none => baseportScanBinds fdbPort cur rest
    | some bp =>
      if (bp : Int) == fdbPort then
        match pyInt val with
        | some n => some n
        | none => baseportScanBinds fdbPort cur rest
      else baseportScanBinds fdbPort cur rest

/-- Outer loop of the base-port walk: break on error rows, scan binds,
break when `ifindex` is truthy. -/
def baseportLoop (fdbPort : Int) :
    Option Int → List Row → Bool → Except Unit (Option Int)
  | cur, [], exc => if exc then .error () else .ok cur
  | cur, r :: rs, exc =>
    if r.errInd || r.errStat then .ok cur
    else
      let cur2 := baseportScanBinds fdbPort cur r.varBinds
      if truthyInt cur2 then .ok cur2 else baseportLoop fdbPort cur2 rs exc

/-- Inner loop of an interface-table walk over one row's `var_binds`:
every bind whose oid ends in `"." + str(ifindex)` overwrites the collected
value; there is no inner break. -/
def ifScanBinds (idxStr : String) (cur : Option String) :
    List (List Nat × String) → Option String
  | [] => cur
  | (oid, val) :: rest =>
    if strEndsWith (oidStr oid) ("." ++ idxStr) then
      ifScanBinds idxStr (some val) rest
    else ifScanBinds idxStr cur rest

/-- Outer loop of one interface-table walk (for `ifName` when `isName`,
else for `ifDescr`), carrying the `(if_name, if_descr)` pair: break on
error rows, scan binds into the walked component, break once
`if_name and if_descr` is truthy. -/
def nameDescrLoop (idxStr : String) (isName : Bool) :
    Option String × Option String → List Row → Bool →
      Except Unit (Option String × Option String)
  | st, [], exc => if exc then .error () else .ok st
  | st, r :: rs, exc =>
    if r.errInd || r.errStat then .ok st
    else
      let st2 :=
        if isName then (ifScanBinds idxStr st.1 r.varBinds, st.2)
        else (st.1, ifScanBinds idxStr st.2 r.varBinds)
      if truthyStr st2.1 && truthyStr st2.2 then .ok st2
      else nameDescrLoop idxStr isName st2 rs exc

/-- Body of the outer `try:` of `snmp_mac_to_port`
(`src/frontend/frontend.py`, lines 276–356): construct the transport
objects, compute `mac_suffix`, then run the three stages; `Except.error`
models an uncaught exception inside the `try`. -/
def snmpBody (mac_address : String) (t : Transport) :
    Except Unit (Option PortMapping) :=
  if t.setupExc then .error () else
  match mac_str_to_oid_suffix mac_address with
  | none => .error ()
  | some macSuffix =>
    match fdbLoop macSuffix none t.fdbWalk t.fdbExc with
    | .error e => .error e
    | .ok none => .ok none
    | .ok (some fdb_port) =>
      if fdb_port == 0 then .ok none else
      match baseportLoop fdb_port none t.baseportWalk t.baseportExc with
      | .error e => .error e
      | .ok none => .ok none
      | .ok (some ifindex) =>
        if ifindex == 0 then .ok none else
        match nameDescrLoop (toString ifindex) true (none, none)
            t.ifnameWalk t.ifnameExc with
        | .error e => .error e
        | .ok st1 =>
          match nameDescrLoop (toString ifindex) false st1
              t.ifdescrWalk t.ifdescrExc with
          | .error e => .error e
          | .ok st2 => .ok (some ⟨ifindex, st2.1, st2.2⟩)

/-- Embedding of `snmp_mac_to_port` (`src/frontend/frontend.py`,
lines 258–358).  `pysnmpOk` is whether `from pysnmp.hlapi import ...`
succeeds; on failure the function returns `None` before touching the
transport.  The outer `except Exception: return None` turns any raised
exception into `none`.  `switch_ip` and `community` are consumed only by
the transport construction, which the `Transport` value abstracts. -/
def snmp_mac_to_port (pysnmpOk : Bool) (switch_ip community mac_address : String)
    (t : Transport) : Option PortMapping :=
  if !pysnmpOk then none
  else
    match snmpBody mac_address t with
    | .error _ => none
    | .ok r => r

namespace TopFrontend

/-- Embedding of the nested `mac_str_to_oid_suffix` of `snmp_mac_to_port`
in `src/Frontend.py` (its code is identical to the copy in
`src/frontend/frontend.py`). -/
def mac_str_to_oid_suffix (mac : String) : Option String :=
  (parseGroups (reSplitSep mac.data)).map
    (fun parts => String.intercalate "." (parts.map toString))

/-- Inner loop of the FDB walk of `src/Frontend.py`'s copy. -/
def fdbScanBinds (macSuffix : String) (cur : Option Int) :
    List (List Nat × String) → Option Int
  | [] => cur
  | (oid, val) :: rest =>
    if strEndsWith (oidStr oid) ("." ++ macSuffix) then
      match pyInt val with
      | some n => some n
      | none => cur
    else fdbScanBinds macSuffix cur rest

/-- Outer loop of the FDB walk of `src/Frontend.py`'s copy. -/
def fdbLoop (macSuffix : String) :
    Option Int → List Row → Bool → Except Unit (Option Int)
  | cur, [], exc => if exc then .error () else .ok cur
  | cur, r :: rs, exc =>
    if r.errInd || r.errStat then .ok cur
    else
      let cur2 := fdbScanBinds macSuffix cur r.varBinds
      if truthyInt cur2 then .ok cur2 else fdbLoop macSuffix cur2 rs exc

/-- Inner loop of the base-port walk of `src/Frontend.py`'s copy. -/
def baseportScanBinds (fdbPort : Int) (cur : Option Int) :
    List (List Nat × String) → Option Int
  | [] => cur
  | (oid, val) :: rest =>
    match oid.getLast? with
    | none => baseportScanBinds fdbPort cur rest
    | some bp =>
      if (bp : Int) == fdbPort then
        match pyInt val with
        | some n => some n
        | none => baseportScanBinds fdbPort cur rest
      else baseportScanBinds fdbPort cur rest

/-- Outer loop of the base-port walk of `src/Frontend.py`'s copy. -/
def baseportLoop (fdbPort : Int) :
    Option Int → List Row → Bool → Except Unit (Option Int)
  | cur, [], exc => if exc then .error () else .ok cur
  | cur, r :: rs, exc =>
    if r.errInd || r.errStat then .ok cur
    else
      let cur2 := baseportScanBinds fdbPort cur r.varBinds
      if truthyInt cur2 then .ok cur2 else baseportLoop fdbPort cur2 rs exc

/-- Inner loop of an interface-table walk of `src/Frontend.py`'s copy. -/
def ifScanBinds (idxStr : String) (cur : Option String) :
    List (List Nat × String) → Option String
  | [] => cur
  | (oid, val) :: rest =>
    if strEndsWith (oidStr oid) ("." ++ idxStr) then
      ifScanBinds idxStr (some val) rest
    else ifScanBinds idxStr cur rest

/-- Outer loop of one interface-table walk of `src/Frontend.py`'s copy. -/
def nameDescrLoop (idxStr : String) (isName : Bool) :
    Option String × Option String → List Row → Bool →
      Except Unit (Option String × Option String)
  | st, [], exc => if exc then .error () else .ok st
  | st, r :: rs, exc =>
    if r.errInd || r.errStat then .ok st
    else
      let st2 :=
        if isName then (ifScanBinds idxStr st.1 r.varBinds, st.2)
        else (st.1, ifScanBinds idxStr st.2 r.varBinds)
      if truthyStr st2.1 && truthyStr st2.2 then .ok st2
      else nameDescrLoop idxStr isName st2 rs exc

/-- Body of the outer `try:` of `snmp_mac_to_port` in `src/Frontend.py`
(lines 276–359). -/
def snmpBody (mac_address : String) (t : Transport) :
    Except Unit (Option PortMapping) :=
  if t.setupExc then .error () else
  match mac_str_to_oid_suffix mac_address with
  | none => .error ()
  | some macSuffix =>
    match fdbLoop macSuffix none t.fdbWalk t.fdbExc with
    | .error e => .error e
    | .ok none => .ok none
    | .ok (some fdb_port) =>
      if fdb_port == 0 then .ok none else
      match baseportLoop fdb_port none t.baseportWalk t.baseportExc with
      | .error e => .error e
      | .ok none => .ok none
      | .ok (some ifindex) =>
        if ifindex == 0 then .ok none else
        match nameDescrLoop (toString ifindex) true (none, none)
            t.ifnameWalk t.ifnameExc with
        | .error e => .error e
        | .ok st1 =>
          match nameDescrLoop (toString ifindex) false st1
              t.ifdescrWalk t.ifdescrExc with
          | .error e => .error e
          | .ok st2 => .ok (some ⟨ifindex, st2.1, st2.2⟩)

/-- Embedding of `snmp_mac_to_port` as defined in `src/Frontend.py`,
lines 258–361. -/
def snmp_mac_to_port (pysnmpOk : Bool) (switch_ip community mac_address : String)
    (t : Transport) : Option PortMapping :=
  if !pysnmpOk then none
  else
    match snmpBody mac_address t with
    | .error _ => none
    | .ok r => r

end TopFrontend

/-- Both invocations of a double call to the resolver with the same
arguments and the same transport behaviour (the "call `resolve` twice
against identical fixed table contents" shape of the spec). -/
def resolveTwice (pysnmpOk : Bool) (switch_ip community mac_address : String)
    (t : Transport) : Option PortMapping × Option PortMapping :=
  (snmp_mac_to_port pysnmpOk switch_ip community mac_address t,
   snmp_mac_to_port pysnmpOk switch_ip community mac_address t)

/-- Hexadecimal digit character for a value below 16, upper or lower case. -/
def hexDigitChar (upper : Bool) (d : Nat) : Char :=
  if d < 10 then Char.ofNat ('0'.toNat + d)
  else if upper then Char.ofNat ('A'.toNat + d - 10)
  else Char.ofNat ('a'.toNat + d - 10)

/-- Two-hex-digit rendering of a byte, as one group of a MAC address. -/
def byteToHexChars (upper : Bool) (b : Nat) : List Char :=
  [hexDigitChar upper (b / 16), hexDigitChar upper (b % 16)]

/-- Join character groups with a separator character between them. -/
def joinGroups (sep : Char) : List (List Char) → List Char
  | [] => []
  | [g] => g
  | g :: gs => g ++ sep :: joinGroups sep gs

/-- Well-formed MAC string over the given byte list: six two-hex-digit
groups joined by the separator, in the chosen letter case.  (Spec-side
description of the inputs the claim quantifies over.) -/
def renderMac (sep : Char) (upper : Bool) (bs : List Nat) : String :=
  String.mk (joinGroups sep (bs.map (byteToHexChars upper)))

/-- Canonical decimal-octet OID-suffix encoding of a byte list. -/
def canonSuffix (bs : List Nat) : String :=
  String.intercalate "." (bs.map (fun b => toString (Int.ofNat b)))

/-- Character that `re.split(r"[:-]", _)` does not split on. -/
def notSepChar (c : Char) : Bool := !(c == ':' || c == '-')

/-- Row conveying a transport-level failure: pysnmp reports timeouts,
unreachable hosts and rejected credentials through a truthy
`errorIndication` on the yielded tuple. -/
def errRow : Row := ⟨true, false, []⟩

/-- FDB-table oid whose suffix encodes the MAC `AA:BB:CC:DD:EE:FF`. -/
def fdbOidAB : List Nat := [1, 3, 6, 1, 2, 1, 17, 4, 3, 1, 2, 170, 187, 204, 221, 238, 255]

/-- Base-port-table oid whose last sub-identifier is base port 12. -/
def bpOid12 : List Nat := [1, 3, 6, 1, 2, 1, 17, 1, 4, 1, 2, 12]

/-- Base-port-table oid whose last sub-identifier is base port 0. -/
def bpOid0 : List Nat := [1, 3, 6, 1, 2, 1, 17, 1, 4, 1, 2, 0]

/-- Interface-name-table oid whose last sub-identifier is ifIndex 7. -/
def nmOid7 : List Nat := [1, 3, 6, 1, 2, 1, 31, 1, 1, 1, 1, 7]

/-- Transport in which all three stages succeed for `AA:BB:CC:DD:EE:FF`:
the FDB maps the MAC to base port 12, base port 12 maps to ifIndex 7, the
interface-name table holds `Gi1/0/7` for ifIndex 7, and the description
table has no entry. -/
def tFull : Transport :=
  { fdbWalk := [⟨false, false, [(fdbOidAB, "12")]⟩], fdbExc := false,
    baseportWalk := [⟨false, false, [(bpOid12, "7")]⟩], baseportExc := false,
    ifnameWalk := [⟨false, false, [(nmOid7, "Gi1/0/7")]⟩], ifnameExc := false,
    ifdescrWalk := [], ifdescrExc := false, setupExc := false }

/-- Transport whose single FDB entry for `AA:BB:CC:DD:EE:FF` carries the
value `0`, while the base-port table does hold a row for base port `0`. -/
def t9zero : Transport :=
  { tFull with fdbWalk := [⟨false, false, [(fdbOidAB, "0")]⟩], baseportWalk := [⟨false, false, [(bpOid0, "7")]⟩] }

/-- The same transport with the `0`-valued FDB entry absent. -/
def t9absent : Transport :=
  { tFull with fdbWalk := [], baseportWalk := [⟨false, false, [(bpOid0, "7")]⟩] }

/-- The two copies of the FDB inner scan agree. -/
theorem fdbScanBinds_copies (s : String) (cur : Option Int)
    (bs : List (List Nat × String)) :
    TopFrontend.fdbScanBinds s cur bs = fdbScanBinds s cur bs := by
  induction bs generalizing cur with
  | nil => rfl
  | cons b rest ih =>
    obtain ⟨oid, val⟩ := b
    simp only [TopFrontend.fdbScanBinds, fdbScanBinds, ih]

/-- The two copies of the FDB walk loop agree. -/
theorem fdbLoop_copies (s : String) (cur : Option Int) (rows : List Row)
    (exc : Bool) :
    TopFrontend.fdbLoop s cur rows exc = fdbLoop s cur rows exc := by
  induction rows generalizing cur with
  | nil => rfl
  | cons r rs ih =>
    simp only [TopFrontend.fdbLoop, fdbLoop, fdbScanBinds_copies, ih]

/-- The two copies of the base-port inner scan agree. -/
theorem baseportScanBinds_copies (p : Int) (cur : Option Int)
    (bs : List (List Nat × String)) :
    TopFrontend.baseportScanBinds p cur bs = baseportScanBinds p cur bs := by
  induction bs generalizing cur with
  | nil => rfl
  | cons b rest ih =>
    obtain ⟨oid, val⟩ := b
    simp only [TopFrontend.baseportScanBinds, baseportScanBinds, ih]

/-- The two copies of the base-port walk loop agree. -/
theorem baseportLoop_copies (p : Int) (cur : Option Int) (rows : List Row)
    (exc : Bool) :
    TopFrontend.baseportLoop p cur rows exc = baseportLoop p cur rows exc := by
  induction rows generalizing cur with
  | nil => rfl
  | cons r rs ih =>
    simp only [TopFrontend.baseportLoop, baseportLoop,
      baseportScanBinds_copies, ih]

/-- The two copies of the interface-table inner scan agree. -/
theorem ifScanBinds_copies (idx : String) (cur : Option String)
    (bs : List (List Nat × String)) :
    TopFrontend.ifScanBinds idx cur bs = ifScanBinds idx cur bs := by
  induction bs generalizing cur with
  | nil => rfl
  | cons b rest ih =>
    obtain ⟨oid, val⟩ := b
    simp only [TopFrontend.ifScanBinds, ifScanBinds, ih]

/-- The two copies of the interface-table walk loop agree. -/
theorem nameDescrLoop_copies (idx : String) (isName : Bool)
    (st : Option String × Option String) (rows : List Row) (exc : Bool) :
    TopFrontend.nameDescrLoop idx isName st rows exc
      = nameDescrLoop idx isName st rows exc := by
  induction rows generalizing st with
  | nil => rfl
  | cons r rs ih =>
    simp only [TopFrontend.nameDescrLoop, nameDescrLoop, ifScanBinds_copies, ih]

/-- The two copies of the resolver body agree. -/
theorem snmpBody_copies (mac : String) (t : Transport) :
    TopFrontend.snmpBody mac t = snmpBody mac t := by
  simp only [TopFrontend.snmpBody, snmpBody, TopFrontend.mac_str_to_oid_suffix,
    mac_str_to_oid_suffix, fdbLoop_copies, baseportLoop_copies,
    nameDescrLoop_copies]

/-- A walk whose next row carries a truthy `errorIndication` or
`errorStatus` stops at once, leaving `fdb_port` as it was. -/
theorem fdbLoop_err {r : Row} (h : (r.errInd || r.errStat) = true)
    (s : String) (cur : Option Int) (rs : List Row) (exc : Bool) :
    fdbLoop s cur (r :: rs) exc = .ok cur := by
  simp [fdbLoop, h]

/-- An exhausted FDB walk with no pending exception returns `fdb_port`
unchanged. -/
theorem fdbLoop_nil (s : String) (cur : Option Int) :
    fdbLoop s cur [] false = .ok cur := rfl

/-- A base-port walk whose next row carries an error indication stops at
once, leaving `ifindex` as it was. -/
theorem baseportLoop_err {r : Row} (h : (r.errInd || r.errStat) = true)
    (p : Int) (cur : Option Int) (rs : List Row) (exc : Bool) :
    baseportLoop p cur (r :: rs) exc = .ok cur := by
  simp [baseportLoop, h]

/-- An exhausted base-port walk with no pending exception returns
`ifindex` unchanged. -/
theorem baseportLoop_nil (p : Int) (cur : Option Int) :
    baseportLoop p cur [] false = .ok cur := rfl

/-- An interface-table walk whose next row carries an error indication
stops at once, leaving the collected pair as it was. -/
theorem nameDescrLoop_err {r : Row} (h : (r.errInd || r.errStat) = true)
    (idx : String) (isName : Bool) (st : Option String × Option String)
    (rs : List Row) (exc : Bool) :
    nameDescrLoop idx isName st (r :: rs) exc = .ok st := by
  simp [nameDescrLoop, h]

/-- An exhausted interface-table walk with no pending exception returns
the collected pair unchanged. -/
theorem nameDescrLoop_nil (idx : String) (isName : Bool)
    (st : Option String × Option String) :
    nameDescrLoop idx isName st [] false = .ok st := rfl

/-- Scanning a row none of whose binds end in the MAC suffix leaves
`fdb_port` unchanged. -/
theorem fdbScanBinds_nomatch (s : String) (cur : Option Int)
    (bs : List (List Nat × String))
    (h : ∀ b ∈ bs, strEndsWith (oidStr b.1) ("." ++ s) = false) :
    fdbScanBinds s cur bs = cur := by
  induction bs with
  | nil => rfl
  | cons b rest ih =>
    obtain ⟨oid, val⟩ := b
    have hb := h (oid, val) (by simp)
    simp only [fdbScanBinds, hb]
    exact ih (fun x hx => h x (by simp [hx]))

/-- An FDB walk none of whose binds end in the MAC suffix either raises or
returns `fdb_port` unchanged. -/
theorem fdbLoop_nomatch (s : String) (cur : Option Int) (rows : List Row)
    (exc : Bool)
    (h : ∀ r ∈ rows, ∀ b ∈ r.varBinds,
      strEndsWith (oidStr b.1) ("." ++ s) = false) :
    fdbLoop s cur rows exc = .ok cur ∨ fdbLoop s cur rows exc = .error () := by
  induction rows generalizing cur with
  | nil => cases exc <;> simp [fdbLoop]
  | cons r rs ih =>
    by_cases he : (r.errInd || r.errStat) = true
    · left; exact fdbLoop_err he s cur rs exc
    · have hscan := fdbScanBinds_nomatch s cur r.varBinds
        (fun b hb => h r (by simp) b hb)
      have hrest := ih cur (fun x hx b hb => h x (by simp [hx]) b hb)
      simp only [fdbLoop, Bool.not_eq_true] at he ⊢
      rw [he]
      simp only [Bool.false_eq_true, if_false, hscan]
      cases ht : truthyInt cur
      · simpa [ht] using hrest
      · simp [ht]

/-- Scanning a row none of whose binds has the sought base port as its
oid's last sub-identifier leaves `ifindex` unchanged. -/
theorem baseportScanBinds_nomatch (p : Int) (cur : Option Int)
    (bs : List (List Nat × String))
    (h : ∀ b ∈ bs, ∀ bp, b.1.getLast? = some bp → ((bp : Int) == p) = false) :
    baseportScanBinds p cur bs = cur := by
  induction bs with
  | nil => rfl
  | cons b rest ih =>
    obtain ⟨oid, val⟩ := b
    have hrest := ih (fun x hx bp hbp => h x (by simp [hx]) bp hbp)
    cases hl : oid.getLast? with
    | none => simp only [baseportScanBinds, hl]; exact hrest
    | some bp =>
      have hb := h (oid, val) (by simp) bp hl
      simp only [baseportScanBinds, hl, hb]
      simp only [Bool.false_eq_true, if_false]
      exact hrest

/-- A base-port walk with no row for the sought base port either raises or
returns `ifindex` unchanged. -/
theorem baseportLoop_nomatch (p : Int) (cur : Option Int) (rows : List Row)
    (exc : Bool)
    (h : ∀ r ∈ rows, ∀ b ∈ r.varBinds, ∀ bp, b.1.getLast? = some bp →
      ((bp : Int) == p) = false) :
    baseportLoop p cur rows exc = .ok cur
      ∨ baseportLoop p cur rows exc = .error () := by
  induction rows generalizing cur with
  | nil => cases exc <;> simp [baseportLoop]
  | cons r rs ih =>
    by_cases he : (r.errInd || r.errStat) = true
    · left; exact baseportLoop_err he p cur rs exc
    · have hscan := baseportScanBinds_nomatch p cur r.varBinds
        (fun b hb => h r (by simp) b hb)
      have hrest := ih cur (fun x hx b hb => h x (by simp [hx]) b hb)
      simp only [baseportLoop, Bool.not_eq_true] at he ⊢
      rw [he]
      simp only [Bool.false_eq_true, if_false, hscan]
      cases ht : truthyInt cur
      · simpa [ht] using hrest
      · simp [ht]

/-- C10: the two copies of the resolver, `snmp_mac_to_port` in
`src/Frontend.py` and `snmp_mac_to_port` in `src/frontend/frontend.py`,
are behaviourally equivalent — for every input and every sequence of
transport responses they return the same result. -/
theorem c10_copies_equivalent (pysnmpOk : Bool)
    (switch_ip community mac_address : String) (t : Transport) :
    TopFrontend.snmp_mac_to_port pysnmpOk switch_ip community mac_address t
      = snmp_mac_to_port pysnmpOk switch_ip community mac_address t := by
  simp only [TopFrontend.snmp_mac_to_port, snmp_mac_to_port, snmpBody_copies]

/-- C6: when the FDB maps `AA:BB:CC:DD:EE:FF` to base port 12, base port
12 maps to ifIndex 7, the interface-name table holds `Gi1/0/7` for
ifIndex 7 and the description table has no entry, the resolver returns
`{ifIndex: 7, ifName: "Gi1/0/7", ifDescr: None}` — the absent description
does not suppress the result. -/
theorem c6_all_stages_success :
    snmp_mac_to_port true "192.0.2.10" "public" "AA:BB:CC:DD:EE:FF" tFull
      = some ⟨7, some "Gi1/0/7", none⟩ := by decide

/-- C7: when the pysnmp import fails, `snmp_mac_to_port` returns `None`
immediately for every input, without raising; the result does not depend
on the transport at all, so no network request can influence it. -/
theorem c7_no_pysnmp (switch_ip community mac_address : String)
    (t : Transport) :
    snmp_mac_to_port false switch_ip community mac_address t = none := rfl

/-- C8: the resolver is deterministic in its arguments and the transport's
responses: the two components of a double call with identical arguments
against the identical fixed table contents are equal.  The embedding takes
every input the Python function reads as an explicit argument — the source
keeps no state across calls (it builds a fresh `SnmpEngine` per call and
writes no global), so the second invocation cannot differ. -/
theorem c8_deterministic (pysnmpOk : Bool)
    (switch_ip community mac_address : String) (t : Transport) :
    (resolveTwice pysnmpOk switch_ip community mac_address t).1
      = (resolveTwice pysnmpOk switch_ip community mac_address t).2 := rfl

/-- C1 counterexample: malformed MAC input is not reported distinctly.
The non-hex MAC `zz:zz:zz:zz:zz:zz` makes `mac_str_to_oid_suffix` raise
(`none` here), yet `snmp_mac_to_port` returns `None` — exactly the
NotFound outcome — even against a fully populated transport; and the
wrong-group-count MAC `AA:BB:CC` is not rejected at all: it too yields the
plain `None` outcome, with no distinguishable error anywhere in the
interface (whose only outcomes are a mapping or `None`). -/
theorem c1_counterexample :
    mac_str_to_oid_suffix "zz:zz:zz:zz:zz:zz" = none
      ∧ snmp_mac_to_port true "192.0.2.10" "public" "zz:zz:zz:zz:zz:zz" tFull
          = none
      ∧ snmp_mac_to_port true "192.0.2.10" "public" "AA:BB:CC" tFull = none := by
  decide

/-- C1 amended: a MAC string whose octet parse fails (non-hex characters
or an empty group) makes the resolver return `None` — the same value as a
protocol miss — because the `ValueError` raised by `int(p, 16)` is
swallowed by the catch-all handler; no distinct InvalidInput outcome
exists.  (A wrong group count of valid hex groups is not even detected:
the walk simply proceeds with a suffix of a different length.) -/
theorem c1_malformed_mac_yields_none (pysnmpOk : Bool)
    (switch_ip community mac_address : String) (t : Transport)
    (h : mac_str_to_oid_suffix mac_address = none) :
    snmp_mac_to_port pysnmpOk switch_ip community mac_address t = none := by
  cases pysnmpOk with
  | false => rfl
  | true =>
    cases hs : t.setupExc <;>
      simp [snmp_mac_to_port, snmpBody, h, hs]

/-- C1 amended, witnessed at the concrete malformed MAC of the
counterexample's family and a populated transport. -/
theorem c1_malformed_mac_yields_none_witness :
    snmp_mac_to_port true "192.0.2.10" "public" "ga:bb:cc:dd:ee:ff" tFull
      = none :=
  c1_malformed_mac_yields_none true "192.0.2.10" "public" "ga:bb:cc:dd:ee:ff"
    tFull (by decide)

/-- C2 counterexample: a transport-level failure does not always produce
the `None` no-match outcome.  With stages 1 and 2 succeeding and a
transport error (pysnmp reports timeouts, unreachable hosts and rejected
credentials as a truthy `errorIndication` on the yielded row) at both
stage-3 walks, the resolver returns the mapping
`{ifIndex: 7, ifName: None, ifDescr: None}`, which differs from `None`. -/
theorem c2_counterexample :
    snmp_mac_to_port true "192.0.2.10" "public" "AA:BB:CC:DD:EE:FF"
        { tFull with ifnameWalk := [errRow], ifdescrWalk := [errRow] }
      = some ⟨7, none, none⟩
      ∧ (some (⟨7, none, none⟩ : PortMapping) : Option PortMapping) ≠ none := by
  decide

/-- C2 amended: the resolver's contract is total — it always returns a
mapping or `None` and never propagates an exception (every raise inside
the body, modelled by `Except.error`, is caught and turned into `none`).
A setup failure or a transport error at stage 1 yields `None`; a transport
error heading the stage-2 walk is observably identical to stage 2 having
no data (both collapse to the no-match outcome); a transport error heading
a stage-3 walk is observably identical to that stage-3 table having no
data — when stages 1 and 2 already succeeded this preserves the mapping
with the name or description absent rather than collapsing to `None`. -/
theorem c2_total_and_failures_collapse (pysnmpOk : Bool)
    (switch_ip community mac_address : String) (t : Transport) :
    (snmp_mac_to_port pysnmpOk switch_ip community mac_address t = none
      ∨ ∃ pm, snmp_mac_to_port pysnmpOk switch_ip community mac_address t
          = some pm)
    ∧ (t.setupExc = true →
        snmp_mac_to_port pysnmpOk switch_ip community mac_address t = none)
    ∧ (∀ r rs, (r.errInd || r.errStat) = true →
        snmp_mac_to_port pysnmpOk switch_ip community mac_address
          { t with fdbWalk := r :: rs } = none)
    ∧ (∀ r rs e, (r.errInd || r.errStat) = true →
        snmp_mac_to_port pysnmpOk switch_ip community mac_address
            { t with baseportWalk := r :: rs, baseportExc := e }
          = snmp_mac_to_port pysnmpOk switch_ip community mac_address
            { t with baseportWalk := [], baseportExc := false })
    ∧ (∀ r rs e, (r.errInd || r.errStat) = true →
        snmp_mac_to_port pysnmpOk switch_ip community mac_address
            { t with ifnameWalk := r :: rs, ifnameExc := e }
          = snmp_mac_to_port pysnmpOk switch_ip community mac_address
            { t with ifnameWalk := [], ifnameExc := false })
    ∧ (∀ r rs e, (r.errInd || r.errStat) = true →
        snmp_mac_to_port pysnmpOk switch_ip community mac_address
            { t with ifdescrWalk := r :: rs, ifdescrExc := e }
          = snmp_mac_to_port pysnmpOk switch_ip community mac_address
            { t with ifdescrWalk := [], ifdescrExc := false }) := by
  refine ⟨?_, ?_, ?_, ?_, ?_, ?_⟩
  · cases h : snmp_mac_to_port pysnmpOk switch_ip community mac_address t with
    | none => exact Or.inl rfl
    | some pm => exact Or.inr ⟨pm, rfl⟩
  · intro hs
    cases pysnmpOk with
    | false => rfl
    | true => simp [snmp_mac_to_port, snmpBody, hs]
  · intro r rs h
    cases pysnmpOk with
    | false => rfl
    | true =>
      cases hs : t.setupExc <;>
        cases hm : mac_str_to_oid_suffix mac_address <;>
          simp [snmp_mac_to_port, snmpBody, hs, hm, fdbLoop_err h]
  · intro r rs e h
    cases pysnmpOk with
    | false => rfl
    | true =>
      simp only [snmp_mac_to_port, snmpBody, baseportLoop_err h,
        baseportLoop_nil]
  · intro r rs e h
    cases pysnmpOk with
    | false => rfl
    | true =>
      simp only [snmp_mac_to_port, snmpBody, nameDescrLoop_err h,
        nameDescrLoop_nil]
  · intro r rs e h
    cases pysnmpOk with
    | false => rfl
    | true =>
      simp only [snmp_mac_to_port, snmpBody, nameDescrLoop_err h,
        nameDescrLoop_nil]

/-- C2 amended, witnessed at a concrete input: the error-headed stage-2
walk and the empty stage-2 walk give the same (here `none`) result. -/
theorem c2_total_and_failures_collapse_witness :
    snmp_mac_to_port true "192.0.2.10" "public" "AA:BB:CC:DD:EE:FF"
        { tFull with baseportWalk := [errRow], baseportExc := true }
      = snmp_mac_to_port true "192.0.2.10" "public" "AA:BB:CC:DD:EE:FF"
        { tFull with baseportWalk := [], baseportExc := false } :=
  ((c2_total_and_failures_collapse true "192.0.2.10" "public"
      "AA:BB:CC:DD:EE:FF" tFull).2.2.2.1) errRow [] true (by decide)

/-- Splitting starts with a separator-free block intact. -/
theorem splitSepCore_append (g cs : List Char) (h : g.all notSepChar = true) :
    splitSepCore (g ++ cs)
      = (g ++ (splitSepCore cs).1, (splitSepCore cs).2) := by
  induction g with
  | nil => simp
  | cons c g ih =>
    simp only [List.all_cons, Bool.and_eq_true] at h
    have hc : (c == ':' || c == '-') = false := by
      have := h.1
      simp only [notSepChar, Bool.not_eq_true'] at this
      exact this
    simp [splitSepCore, ih h.2, hc]

/-- Splitting the separator-joined groups recovers the groups, when no
group contains a separator character. -/
theorem reSplitSep_joinGroups (sep : Char)
    (hsep : (sep == ':' || sep == '-') = true) :
    ∀ gs : List (List Char), gs ≠ [] →
      (∀ g ∈ gs, g.all notSepChar = true) →
      reSplitSep (joinGroups sep gs) = gs := by
  intro gs
  induction gs with
  | nil => intro h; exact absurd rfl h
  | cons g gs ih =>
    intro _ hall
    cases gs with
    | nil =>
      have hg := hall g (by simp)
      have h1 : splitSepCore (g ++ ([] : List Char))
          = (g ++ (splitSepCore ([] : List Char)).1,
             (splitSepCore ([] : List Char)).2) :=
        splitSepCore_append g [] hg
      have h2 : splitSepCore ([] : List Char) = ([], []) := rfl
      rw [h2, List.append_nil] at h1
      show (splitSepCore (joinGroups sep [g])).1
          :: (splitSepCore (joinGroups sep [g])).2 = [g]
      have h3 : joinGroups sep [g] = g := rfl
      rw [h3, h1]
    | cons g2 gs2 =>
      have hg := hall g (by simp)
      have hrec := ih (by simp) (fun x hx => hall x (by simp [hx]))
      have hjoin : joinGroups sep (g :: g2 :: gs2)
          = g ++ sep :: joinGroups sep (g2 :: gs2) := rfl
      have hs2 : splitSepCore (sep :: joinGroups sep (g2 :: gs2))
          = ([], (splitSepCore (joinGroups sep (g2 :: gs2))).1
              :: (splitSepCore (joinGroups sep (g2 :: gs2))).2) := by
        show (let p := splitSepCore (joinGroups sep (g2 :: gs2));
              if sep == ':' || sep == '-' then ([], p.1 :: p.2)
              else (sep :: p.1, p.2)) = _
        rw [hsep]
        rfl
      have h1 := splitSepCore_append g (sep :: joinGroups sep (g2 :: gs2)) hg
      rw [hs2, List.append_nil] at h1
      show (splitSepCore (joinGroups sep (g :: g2 :: gs2))).1
          :: (splitSepCore (joinGroups sep (g :: g2 :: gs2))).2
          = g :: g2 :: gs2
      rw [hjoin, h1]
      have hrec2 : (splitSepCore (joinGroups sep (g2 :: gs2))).1
          :: (splitSepCore (joinGroups sep (g2 :: gs2))).2 = g2 :: gs2 := hrec
      rw [hrec2]

/-- A two-hex-digit group parses back (via Python's `int(_, 16)`) to the
byte it renders, in either letter case. -/
theorem byteToHex_roundtrip :
    ∀ upper : Bool, ∀ b : Nat, b < 256 →
      pyIntHexChars (byteToHexChars upper b) = some (Int.ofNat b) := by
  decide

/-- A two-hex-digit group contains no separator character. -/
theorem byteToHex_notSep :
    ∀ upper : Bool, ∀ b : Nat, b < 256 →
      (byteToHexChars upper b).all notSepChar = true := by
  decide

/-- Parsing each rendered group of a byte list succeeds and yields the
bytes. -/
theorem parseGroups_byteToHex (upper : Bool) :
    ∀ bs : List Nat, (∀ b ∈ bs, b < 256) →
      parseGroups (bs.map (byteToHexChars upper)) = some (bs.map Int.ofNat) := by
  intro bs
  induction bs with
  | nil => intro _; rfl
  | cons b bs ih =>
    intro h
    have hb := byteToHex_roundtrip upper b (h b (by simp))
    have hrest := ih (fun x hx => h x (by simp [hx]))
    simp [parseGroups, hb, hrest]

/-- C5: for every well-formed MAC string of six two-hex-digit groups, the
OID-suffix encoding is the canonical decimal-octet string, identical
whether the separator is `:` or `-` and whatever the letter case; in
particular `AA:BB:CC:DD:EE:FF` and `aa-bb-cc-dd-ee-ff` both encode to
`170.187.204.221.238.255`. -/
theorem c5_canonical_encoding :
    (∀ bs : List Nat, bs.length = 6 → (∀ b ∈ bs, b < 256) →
      ∀ sep : Char, (sep == ':' || sep == '-') = true → ∀ upper : Bool,
        mac_str_to_oid_suffix (renderMac sep upper bs) = some (canonSuffix bs))
    ∧ mac_str_to_oid_suffix "AA:BB:CC:DD:EE:FF"
        = some "170.187.204.221.238.255"
    ∧ mac_str_to_oid_suffix "aa-bb-cc-dd-ee-ff"
        = some "170.187.204.221.238.255" := by
  refine ⟨?_, by decide, by decide⟩
  intro bs hlen hbytes sep hsep upper
  have hne : bs.map (byteToHexChars upper) ≠ [] := by
    cases bs with
    | nil => exact absurd hlen (by simp)
    | cons b bs => simp
  have hallsep : ∀ g ∈ bs.map (byteToHexChars upper),
      g.all notSepChar = true := by
    intro g hgmem
    obtain ⟨b, hb, rfl⟩ := List.mem_map.mp hgmem
    exact byteToHex_notSep upper b (hbytes b hb)
  show (parseGroups (reSplitSep
      (String.mk (joinGroups sep (bs.map (byteToHexChars upper)))).data)).map
        (fun parts => String.intercalate "." (parts.map toString))
      = some (canonSuffix bs)
  have hdata : (String.mk (joinGroups sep (bs.map (byteToHexChars upper)))).data
      = joinGroups sep (bs.map (byteToHexChars upper)) := rfl
  rw [hdata, reSplitSep_joinGroups sep hsep _ hne hallsep,
    parseGroups_byteToHex upper bs hbytes]
  simp only [canonSuffix, Option.map_some', List.map_map]
  rfl

/-- C5, witnessed at the byte list of the claim's example with colon
separator and upper case. -/
theorem c5_canonical_encoding_witness :
    mac_str_to_oid_suffix (renderMac ':' true [170, 187, 204, 221, 238, 255])
      = some (canonSuffix [170, 187, 204, 221, 238, 255]) :=
  c5_canonical_encoding.1 [170, 187, 204, 221, 238, 255] (by decide)
    (by decide) ':' (by decide) true

/-- C3: a `PortMapping` is returned only when all three stages succeeded
for the same carried value — the returned `ifIndex` is the nonzero value
produced by stage 2 from the nonzero base port produced by stage 1 from
the queried MAC's suffix, and the name/description come from stage 3 run
at that very `ifIndex`; an FDB walk with no entry for the queried MAC
yields `None` regardless of the other tables; and a stage-1 hit whose base
port has no row in the base-port table also yields `None` — partial chains
expose nothing. -/
theorem c3_full_chain_invariant (pysnmpOk : Bool)
    (switch_ip community mac_address : String) (t : Transport) :
    (∀ pm, snmp_mac_to_port pysnmpOk switch_ip community mac_address t
        = some pm →
      ∃ sfx p i st1 st2,
        mac_str_to_oid_suffix mac_address = some sfx
        ∧ fdbLoop sfx none t.fdbWalk t.fdbExc = .ok (some p) ∧ p ≠ 0
        ∧ baseportLoop p none t.baseportWalk t.baseportExc = .ok (some i)
        ∧ i ≠ 0
        ∧ nameDescrLoop (toString i) true (none, none) t.ifnameWalk
            t.ifnameExc = .ok st1
        ∧ nameDescrLoop (toString i) false st1 t.ifdescrWalk
            t.ifdescrExc = .ok st2
        ∧ pm = ⟨i, st2.1, st2.2⟩)
    ∧ (∀ sfx, mac_str_to_oid_suffix mac_address = some sfx →
        (∀ r ∈ t.fdbWalk, ∀ b ∈ r.varBinds,
          strEndsWith (oidStr b.1) ("." ++ sfx) = false) →
        snmp_mac_to_port pysnmpOk switch_ip community mac_address t = none)
    ∧ (∀ sfx p, mac_str_to_oid_suffix mac_address = some sfx →
        fdbLoop sfx none t.fdbWalk t.fdbExc = .ok (some p) → p ≠ 0 →
        (∀ r ∈ t.baseportWalk, ∀ b ∈ r.varBinds, ∀ bp,
          b.1.getLast? = some bp → (bp : Int) ≠ p) →
        snmp_mac_to_port pysnmpOk switch_ip community mac_address t
          = none) := by
  refine ⟨?_, ?_, ?_⟩
  · intro pm h
    cases pysnmpOk with
    | false => simp [snmp_mac_to_port] at h
    | true =>
      simp only [snmp_mac_to_port, Bool.not_true, Bool.false_eq_true,
        if_false] at h
      rcases hB : snmpBody mac_address t with e | r
      · simp only [hB] at h; exact absurd h (by simp)
      simp only [hB] at h
      subst h
      simp only [snmpBody] at hB
      cases hs : t.setupExc with
      | true => simp [hs] at hB
      | false =>
        simp only [hs, Bool.false_eq_true, if_false] at hB
        rcases hm : mac_str_to_oid_suffix mac_address with _ | sfx
        · simp [hm] at hB
        simp only [hm] at hB
        rcases hf : fdbLoop sfx none t.fdbWalk t.fdbExc with e | _ | p
        · simp [hf] at hB
        · simp [hf] at hB
        simp only [hf] at hB
        cases hp : (p == 0) with
        | true => simp [hp] at hB
        | false =>
        simp only [hp, Bool.false_eq_true, if_false] at hB
        rcases hbp : baseportLoop p none t.baseportWalk t.baseportExc
            with e | _ | i
        · simp [hbp] at hB
        · simp [hbp] at hB
        simp only [hbp] at hB
        cases hi : (i == 0) with
        | true => simp [hi] at hB
        | false =>
        simp only [hi, Bool.false_eq_true, if_false] at hB
        rcases hn1 : nameDescrLoop (toString i) true (none, none)
            t.ifnameWalk t.ifnameExc with e | st1
        · simp [hn1] at hB
        simp only [hn1] at hB
        rcases hn2 : nameDescrLoop (toString i) false st1 t.ifdescrWalk
            t.ifdescrExc with e | st2
        · simp [hn2] at hB
        simp only [hn2] at hB
        have hpm : (⟨i, st2.1, st2.2⟩ : PortMapping) = pm := by
          simpa using hB
        refine ⟨sfx, p, i, st1, st2, rfl, hf, ?_, hbp, ?_, hn1, hn2,
          hpm.symm⟩
        · intro h0; subst h0; simp at hp
        · intro h0; subst h0; simp at hi
  · intro sfx hm hnomatch
    cases pysnmpOk with
    | false => rfl
    | true =>
      cases hs : t.setupExc
      · rcases fdbLoop_nomatch sfx none t.fdbWalk t.fdbExc hnomatch
            with h2 | h2 <;>
          simp [snmp_mac_to_port, snmpBody, hs, hm, h2]
      · simp [snmp_mac_to_port, snmpBody, hs]
  · intro sfx p hm hf hp hnorow
    cases pysnmpOk with
    | false => rfl
    | true =>
      cases hs : t.setupExc
      · have hp0 : (p == 0) = false := by
          cases h0 : (p == 0)
          · rfl
          · exact absurd (by simpa using h0) hp
        have hnomatch : ∀ r ∈ t.baseportWalk, ∀ b ∈ r.varBinds, ∀ bp,
            b.1.getLast? = some bp → ((bp : Int) == p) = false := by
          intro r hr b hb bp hbp
          cases h0 : ((bp : Int) == p)
          · rfl
          · exact absurd (by simpa using h0) (hnorow r hr b hb bp hbp)
        rcases baseportLoop_nomatch p none t.baseportWalk t.baseportExc
            hnomatch with h2 | h2 <;>
          simp [snmp_mac_to_port, snmpBody, hs, hm, hf, hp0, h2]
      · simp [snmp_mac_to_port, snmpBody, hs]

/-- C3, witnessed: the empty-FDB part at a concrete transport whose other
two tables are fully populated, for the MAC `AA:BB:CC:DD:EE:FF`. -/
theorem c3_full_chain_invariant_witness :
    snmp_mac_to_port true "192.0.2.10" "public" "AA:BB:CC:DD:EE:FF"
        { tFull with fdbWalk := [] } = none :=
  (c3_full_chain_invariant true "192.0.2.10" "public" "AA:BB:CC:DD:EE:FF"
      { tFull with fdbWalk := [] }).2.1
    "170.187.204.221.238.255" (by decide) (by decide)

/-- C4 counterexample: at stage 3 the first matching entry does not
determine the result and iteration does not stop on it.  With the
interface-name walk yielding two entries whose oids both end in `.7`,
value `"A"` first and `"B"` second, the resolver reports `ifName = "B"`:
the later matching entry overrode the earlier one. -/
theorem c4_counterexample :
    snmp_mac_to_port true "192.0.2.10" "public" "AA:BB:CC:DD:EE:FF"
        { tFull with
          ifnameWalk := [⟨false, false, [(nmOid7, "A"), (nmOid7, "B")]⟩] }
      = some ⟨7, some "B", none⟩
    ∧ ("B" : String) ≠ "A" := by
  decide

/-- C4 amended: at stages 1 and 2 the first row whose scan produces a
truthy (nonzero) parsed value determines the stage's result and the walk
stops early on it, and a walk error row stops iteration at once with the
carried value unchanged; at stage 3, however, the inner scan has no early
stop — the last matching entry of the scanned binds wins — and the name
walk continues past matching rows while the description is still unset. -/
theorem c4_first_match_policy :
    (∀ s (r : Row) rs exc n, (r.errInd || r.errStat) = false →
      fdbScanBinds s none r.varBinds = some n → n ≠ 0 →
      fdbLoop s none (r :: rs) exc = .ok (some n))
    ∧ (∀ s cur (r : Row) rs exc, (r.errInd || r.errStat) = true →
      fdbLoop s cur (r :: rs) exc = .ok cur)
    ∧ (∀ p (r : Row) rs exc n, (r.errInd || r.errStat) = false →
      baseportScanBinds p none r.varBinds = some n → n ≠ 0 →
      baseportLoop p none (r :: rs) exc = .ok (some n))
    ∧ (∀ p cur (r : Row) rs exc, (r.errInd || r.errStat) = true →
      baseportLoop p cur (r :: rs) exc = .ok cur)
    ∧ (∀ idx cur bs oid v, strEndsWith (oidStr oid) ("." ++ idx) = true →
      ifScanBinds idx cur (bs ++ [(oid, v)]) = some v)
    ∧ (∀ idx nm (r : Row) rs exc, (r.errInd || r.errStat) = false →
      nameDescrLoop idx true (nm, none) (r :: rs) exc
        = nameDescrLoop idx true (ifScanBinds idx nm r.varBinds, none) rs
            exc) := by
  refine ⟨?_, ?_, ?_, ?_, ?_, ?_⟩
  · intro s r rs exc n herr hscan hn
    have ht : truthyInt (some n) = true := by simp [truthyInt, hn]
    simp only [fdbLoop, herr, Bool.false_eq_true, if_false, hscan, ht,
      if_true]
  · intro s cur r rs exc herr
    exact fdbLoop_err herr s cur rs exc
  · intro p r rs exc n herr hscan hn
    have ht : truthyInt (some n) = true := by simp [truthyInt, hn]
    simp only [baseportLoop, herr, Bool.false_eq_true, if_false, hscan, ht,
      if_true]
  · intro p cur r rs exc herr
    exact baseportLoop_err herr p cur rs exc
  · intro idx cur bs oid v h
    induction bs generalizing cur with
    | nil => simp [ifScanBinds, h]
    | cons b rest ih =>
      obtain ⟨boid, bval⟩ := b
      by_cases hb : strEndsWith (oidStr boid) ("." ++ idx) = true
      · simpa [ifScanBinds, hb] using ih (some bval)
      · have hb2 : strEndsWith (oidStr boid) ("." ++ idx) = false := by
          simpa using hb
        simpa [ifScanBinds, hb2] using ih cur
  · intro idx nm r rs exc herr
    simp [nameDescrLoop, herr, truthyStr]

/-- C4 amended, witnessed: the stage-1 first-truthy-match rule applied at
the concrete FDB row of the all-success transport, with an arbitrary tail
that the early stop never reads. -/
theorem c4_first_match_policy_witness :
    fdbLoop "170.187.204.221.238.255" none
        (⟨false, false, [(fdbOidAB, "12")]⟩ :: [errRow]) false
      = .ok (some 12) :=
  c4_first_match_policy.1 "170.187.204.221.238.255"
    ⟨false, false, [(fdbOidAB, "12")]⟩ [errRow] false 12 (by decide)
    (by decide) (by decide)

/-- C9: a matching FDB entry whose value is `0` (or fails to parse) is not
a match for the truthiness guards — the walk continues past it, a stage-1
result of `0` ends in `None`, and likewise a stage-2 `ifIndex` of `0`;
concretely, a switch whose FDB reports base port `0` (with a stage-2 row
for port `0` available), or an unparseable port value, or a base-port
table answering `0`, all yield `None`, and the `0`-valued FDB entry is
indistinguishable at the public interface from that entry being absent. -/
theorem c9_truthiness_zero :
    (∀ s (r : Row) rs exc, (r.errInd || r.errStat) = false →
      fdbScanBinds s none r.varBinds = some 0 →
      fdbLoop s none (r :: rs) exc = fdbLoop s (some 0) rs exc)
    ∧ (∀ pysnmpOk switch_ip community mac sfx (t : Transport),
      mac_str_to_oid_suffix mac = some sfx →
      fdbLoop sfx none t.fdbWalk t.fdbExc = .ok (some 0) →
      snmp_mac_to_port pysnmpOk switch_ip community mac t = none)
    ∧ (∀ pysnmpOk switch_ip community mac sfx p (t : Transport),
      mac_str_to_oid_suffix mac = some sfx →
      fdbLoop sfx none t.fdbWalk t.fdbExc = .ok (some p) → p ≠ 0 →
      baseportLoop p none t.baseportWalk t.baseportExc = .ok (some 0) →
      snmp_mac_to_port pysnmpOk switch_ip community mac t = none)
    ∧ snmp_mac_to_port true "192.0.2.10" "public" "AA:BB:CC:DD:EE:FF" t9zero
        = none
    ∧ snmp_mac_to_port true "192.0.2.10" "public" "AA:BB:CC:DD:EE:FF"
        { tFull with fdbWalk := [⟨false, false, [(fdbOidAB, "x")]⟩] } = none
    ∧ snmp_mac_to_port true "192.0.2.10" "public" "AA:BB:CC:DD:EE:FF"
        { tFull with baseportWalk := [⟨false, false, [(bpOid12, "0")]⟩] }
        = none
    ∧ snmp_mac_to_port true "192.0.2.10" "public" "AA:BB:CC:DD:EE:FF" t9zero
      = snmp_mac_to_port true "192.0.2.10" "public" "AA:BB:CC:DD:EE:FF"
          t9absent := by
  refine ⟨?_, ?_, ?_, by decide, by decide, by decide, by decide⟩
  · intro s r rs exc herr hscan
    simp only [fdbLoop, herr, Bool.false_eq_true, if_false, hscan]
    rfl
  · intro pysnmpOk switch_ip community mac sfx t hm hf
    cases pysnmpOk with
    | false => rfl
    | true =>
      cases hs : t.setupExc with
      | true => simp [snmp_mac_to_port, snmpBody, hs]
      | false => simp [snmp_mac_to_port, snmpBody, hs, hm, hf]
  · intro pysnmpOk switch_ip community mac sfx p t hm hf hp hbp
    cases pysnmpOk with
    | false => rfl
    | true =>
      cases hs : t.setupExc with
      | true => simp [snmp_mac_to_port, snmpBody, hs]
      | false =>
        have hp0 : (p == 0) = false := by
          cases h0 : (p == 0)
          · rfl
          · exact absurd (by simpa using h0) hp
        simp [snmp_mac_to_port, snmpBody, hs, hm, hf, hp0, hbp]

/-- C9, witnessed: the stage-1-zero rule applied at the concrete transport
whose single FDB entry for the queried MAC carries value `0`. -/
theorem c9_truthiness_zero_witness :
    snmp_mac_to_port true "198.51.100.1" "private" "AA:BB:CC:DD:EE:FF" t9zero
      = none :=
  c9_truthiness_zero.2.1 true "198.51.100.1" "private" "AA:BB:CC:DD:EE:FF"
    "170.187.204.221.238.255" t9zero (by decide) (by rfl)

end HealthCheck
